import Mathlib

/-!
Verification of the VirSat5_FreeCAD crawler/importer core.

This file gives a shallow embedding, in Lean, of the algorithmic core of the
repository:

* `workbench/crawler.py` — identifier handling (`build_entity_tree`), the
  property resolver (`extract_visualization`), part-data generation
  (`get_part_data`), the output-tree builder (`build_output_tree`), and the
  generation driver (`generate_satellite_data`, minus the HTTP fetching);
* `workbench/SatelliteImporter.py` — the incremental reconciler
  (`update_satellite_document` and the helpers it calls).

Python dicts are modelled as association lists with first-wins lookup and
replace-in-place-or-append insertion (Python dicts never hold duplicate keys,
so the two agree); Python floats are modelled as exact rationals; Python
exceptions are modelled with `Except`; recursion-depth limits are modelled
with explicit fuel where the Python recursion is unguarded.  String helpers
(`strLower`, `strUpper`, `strTrim`, `strLt`) re-implement the Python
`str.lower`/`str.upper`/`str.strip` and string ordering by Unicode code point
so that concrete runs of the model reduce inside the Lean kernel.
-/

deriving instance DecidableEq for Except

namespace VirSat

/-! ### String helpers (Python `str.lower`, `str.upper`, `str.strip`, `<`) -/

/-- Python `str.lower()` (code-point-wise, as `Char.toLower`). -/
def strLower (s : String) : String := ⟨s.data.map Char.toLower⟩

/-- Python `str.upper()` (code-point-wise, as `Char.toUpper`). -/
def strUpper (s : String) : String := ⟨s.data.map Char.toUpper⟩

/-- Python `str.strip()`: drop leading and trailing whitespace. -/
def strTrim (s : String) : String :=
  ⟨((s.data.dropWhile Char.isWhitespace).reverse.dropWhile Char.isWhitespace).reverse⟩

/-- Lexicographic comparison of code-point lists (Python string `<`). -/
def charsLt : List Char → List Char → Bool
  | [], [] => false
  | [], _ :: _ => true
  | _ :: _, [] => false
  | a :: as, b :: bs =>
      if a.val < b.val then true
      else if b.val < a.val then false
      else charsLt as bs

/-- Python string comparison `a < b` (lexicographic by code point). -/
def strLt (a b : String) : Bool := charsLt a.data b.data

/-! ### Association-list model of Python dicts

Python dicts preserve insertion order of first insertion and update values in
place; they never hold duplicate keys.  `dictFind` is first-wins lookup,
`dictInsert` replaces the first occurrence of the key or appends, and
`dictMerge a b` is `{**a, **b}`. -/

/-- First-wins lookup in an association list (Python `d.get(k)` / `d[k]`). -/
def dictFind {α : Type} : List (String × α) → String → Option α
  | [], _ => none
  | kv :: rest, k => if kv.1 = k then some kv.2 else dictFind rest k

/-- Python `d[k] = v`: replace the first binding of `k`, else append. -/
def dictInsert {α : Type} : List (String × α) → String → α → List (String × α)
  | [], k, v => [(k, v)]
  | kv :: rest, k, v => if kv.1 = k then (k, v) :: rest else kv :: dictInsert rest k v

/-- Python `{**a, **b}`: insert all bindings of `b` into `a`, in order. -/
def dictMerge {α : Type} (a b : List (String × α)) : List (String × α) :=
  b.foldl (fun acc kv => dictInsert acc kv.1 kv.2) a

/-- The keys of an association list. -/
def dictKeys {α : Type} (d : List (String × α)) : List String := d.map Prod.fst

theorem dictKeys_cons {α : Type} (kv : String × α) (rest : List (String × α)) :
    dictKeys (kv :: rest) = kv.1 :: dictKeys rest := rfl

theorem dictFind_insert_self {α : Type} (d : List (String × α)) (k : String) (v : α) :
    dictFind (dictInsert d k v) k = some v := by
  induction d with
  | nil => simp [dictInsert, dictFind]
  | cons kv rest ih =>
      by_cases h : kv.1 = k
      · simp [dictInsert, h, dictFind]
      · simp [dictInsert, h, dictFind, ih]

theorem dictFind_insert_ne {α : Type} (d : List (String × α)) (k' k : String) (v : α)
    (h : k' ≠ k) : dictFind (dictInsert d k' v) k = dictFind d k := by
  induction d with
  | nil => simp [dictInsert, dictFind, h]
  | cons kv rest ih =>
      obtain ⟨k1, v1⟩ := kv
      by_cases h2 : k1 = k'
      · subst h2; simp [dictInsert, dictFind, h]
      · by_cases h3 : k1 = k
        · simp [dictInsert, h2, dictFind, h3, Ne.symm h]
        · simp [dictInsert, h2, dictFind, h3, ih]

theorem mem_dictKeys_insert {α : Type} (d : List (String × α)) (k x : String) (v : α)
    (hx : x ∈ dictKeys (dictInsert d k v)) : x ∈ dictKeys d ∨ x = k := by
  induction d with
  | nil =>
      simp only [dictInsert, dictKeys, List.map_cons, List.map_nil, List.mem_singleton] at hx
      right; exact hx
  | cons kv rest ih =>
      by_cases h : kv.1 = k
      · rw [dictInsert, if_pos h, dictKeys_cons] at hx
        rcases List.mem_cons.mp hx with h1 | h1
        · right; exact h1
        · left; rw [dictKeys_cons, List.mem_cons]; right; exact h1
      · rw [dictInsert, if_neg h, dictKeys_cons] at hx
        rcases List.mem_cons.mp hx with h1 | h1
        · left; rw [dictKeys_cons, List.mem_cons]; left; exact h1
        · rcases ih h1 with h2 | h2
          · left; rw [dictKeys_cons, List.mem_cons]; right; exact h2
          · right; exact h2

theorem dictKeys_insert_nodup {α : Type} (d : List (String × α)) (k : String) (v : α)
    (hd : (dictKeys d).Nodup) : (dictKeys (dictInsert d k v)).Nodup := by
  induction d with
  | nil => simp [dictInsert, dictKeys]
  | cons kv rest ih =>
      rw [dictKeys_cons, List.nodup_cons] at hd
      by_cases h : kv.1 = k
      · rw [dictInsert, if_pos h, dictKeys_cons, List.nodup_cons]
        exact ⟨by rw [← h]; exact hd.1, hd.2⟩
      · rw [dictInsert, if_neg h, dictKeys_cons, List.nodup_cons]
        refine ⟨fun hmem => ?_, ih hd.2⟩
        rcases mem_dictKeys_insert rest k kv.1 v hmem with h1 | h1
        · exact hd.1 h1
        · exact h h1

theorem dictFind_merge_notin {α : Type} (b : List (String × α)) :
    ∀ (a : List (String × α)) (k : String), k ∉ dictKeys b →
      dictFind (dictMerge a b) k = dictFind a k := by
  induction b with
  | nil => intro a k _; simp [dictMerge]
  | cons kv rest ih =>
      intro a k hk
      rw [dictKeys_cons, List.mem_cons, not_or] at hk
      have hstep : dictMerge a (kv :: rest) = dictMerge (dictInsert a kv.1 kv.2) rest := by
        simp [dictMerge]
      rw [hstep, ih _ k hk.2]
      exact dictFind_insert_ne a kv.1 k kv.2 (fun h => hk.1 h.symm)

theorem dictFind_merge_right {α : Type} (b : List (String × α)) :
    ∀ (a : List (String × α)) (k : String) (v : α), (dictKeys b).Nodup →
      dictFind b k = some v → dictFind (dictMerge a b) k = some v := by
  induction b with
  | nil => intro a k v _ hk; simp [dictFind] at hk
  | cons kv rest ih =>
      intro a k v hb hk
      rw [dictKeys_cons, List.nodup_cons] at hb
      have hstep : dictMerge a (kv :: rest) = dictMerge (dictInsert a kv.1 kv.2) rest := by
        simp [dictMerge]
      by_cases h : kv.1 = k
      · have hv : kv.2 = v := by simpa [dictFind, h] using hk
        have hrest : k ∉ dictKeys rest := by
          intro hmem; exact hb.1 (h ▸ hmem)
        rw [hstep, dictFind_merge_notin rest _ k hrest, h,
          dictFind_insert_self, hv]
      · simp only [dictFind, h, if_false] at hk
        rw [hstep]
        exact ih _ k v hb.2 hk

/-! ### Data model (crawler.py input records)

`Val` models the scalar JSON values appearing in category property lists
(strings and numbers; Python floats are modelled as exact rationals).
`PropValue` models the two shapes a raw property value takes in the source:
a bare scalar, or a dict carrying the scalar under a `value` key
(`extract_visualization` unwraps the latter).  Identifiers are modelled as
strings; `PyId` additionally models a `parentId` that may be JSON `null`
(Python `None`). -/

inductive Val : Type where
  | str (s : String)
  | num (q : Rat)
deriving DecidableEq, Repr

inductive PropValue : Type where
  | plain (v : Val)
  | wrapped (v : Val)
deriving DecidableEq, Repr

/-- The source's `value['value'] if isinstance(value, dict) ... else value`. -/
def unwrapValue : PropValue → Val
  | .plain v => v
  | .wrapped v => v

inductive PyId : Type where
  | null
  | str (s : String)
deriving DecidableEq, Repr

/-- Python `str(...)` applied to a `parentId` (`str(None) = "None"`). -/
def pyIdStr : PyId → String
  | .null => "None"
  | .str s => s

/-- Python truthiness of a `parentId` (`None` and `""` are falsy). -/
def pyIdTruthy : PyId → Bool
  | .null => false
  | .str s => s ≠ ""

structure CatProp : Type where
  name : String
  value : PropValue
deriving DecidableEq, Repr

structure Category : Type where
  id : String
  name : String
  entityId : String
  inheritsFrom : Option String
  properties : List CatProp
deriving DecidableEq, Repr

structure Entity : Type where
  id : String
  name : String
  entityTypeId : String
  parentId : Option PyId
  inheritsFrom : List String
deriving DecidableEq, Repr

structure EntityType : Type where
  id : String
  name : String
  isRoot : Bool
deriving DecidableEq, Repr

/-! ### Numeric coercions (Python `float(...)`, `int(...)`) -/

/-- Parse a run of decimal digits. -/
def digitsToNat? : List Char → Option Nat
  | [] => none
  | cs => cs.foldl (fun acc c =>
      match acc with
      | none => none
      | some n => if c.isDigit then some (n * 10 + (c.toNat - 48)) else none)
      (some 0)

/-- Python `float(s)` on a plain decimal literal (optional sign, optional
fractional part).  Scientific notation is not modelled; no claim feeds
exponent-form strings to the code. -/
def strToRat? (s : String) : Option Rat :=
  let t := (strTrim s).data
  let (sgn, body) : Rat × List Char :=
    match t with
    | '-' :: rest => (-1, rest)
    | '+' :: rest => (1, rest)
    | _ => (1, t)
  match body.splitOn '.' with
  | [a] => (digitsToNat? a).map (fun n => sgn * n)
  | [a, b] =>
      if a.isEmpty ∧ b.isEmpty then none
      else
        let ip : Option Nat := if a.isEmpty then some 0 else digitsToNat? a
        let fp : Option Nat := if b.isEmpty then some 0 else digitsToNat? b
        match ip, fp with
        | some i, some f => some (sgn * (i + (f : Rat) / ((10 : Rat) ^ b.length)))
        | _, _ => none
  | _ => none

/-- Python `float(v)`: numbers pass through, strings are parsed, anything
unparsable raises (`none` here). -/
def pyFloat? : Val → Option Rat
  | .num q => some q
  | .str s => strToRat? s

/-- Python `int(q)` on a float truncates toward zero. -/
def ratTrunc (q : Rat) : Int := q.num.tdiv q.den

/-- Python `int(v)`: floats truncate toward zero, strings must be integer
literals, anything else raises (`none`). -/
def pyInt? : Val → Option Int
  | .num q => some (ratTrunc q)
  | .str s => (strTrim s).toInt?

/-- Python truthiness of a scalar value. -/
def pyTruthy : Val → Bool
  | .num q => q ≠ 0
  | .str s => s ≠ ""

/-- Python `str(v)`.  For numbers the decimal rendering of Python differs in
detail from `toString 'Rat'`; no claim applies `str` to a numeric value. -/
def pyStr : Val → String
  | .str s => s
  | .num q => toString q

/-! ### Property resolver (`extract_visualization`, crawler.py 72-159) -/

abbrev PDict := List (String × Val)

/-- The dict comprehension `{cat['id']: cat for cat in all_categories}`:
for duplicate ids the later category wins (`foldl` keeps the last match). -/
def categoryMapFind (cats : List Category) (cid : String) : Option Category :=
  cats.foldl (fun acc c => if c.id = cid then some c else acc) none

/-- The clamp used for `transparency` properties: `float` then clamp to
`[0, 100]`, defaulting to `0.0` when the parse raises. -/
def transparencyValue (v : Val) : Rat :=
  match pyFloat? v with
  | some q => max 0 (min 100 q)
  | none => 0

/-- One iteration of the merge loop over a category's property list: a
property is only set when its name is not already present (nearer category
wins), with the special clamping of `transparency`. -/
def mergeCatProps (props : PDict) (l : List CatProp) : PDict :=
  l.foldl (fun acc p =>
    let v := unwrapValue p.value
    if (dictFind acc p.name).isSome then acc
    else if p.name = "transparency" then
      dictInsert acc p.name (Val.num (transparencyValue v))
    else dictInsert acc p.name v) props

/-- Lines 144-148 of crawler.py: push the parent category onto the queue when
`inheritsFrom` is truthy and resolves in the category map. -/
def chainNext (cats : List Category) (current : Category) (rest : List Category) :
    List Category :=
  match current.inheritsFrom with
  | some pid =>
      if pid = "" then rest
      else
        match categoryMapFind cats pid with
        | some parent => rest ++ [parent]
        | none => rest
  | none => rest

/-- The `while stack:` loop of `extract_visualization` (crawler.py 115-148):
a FIFO queue seeded with the candidate category, a visited set of category
ids, properties merged without overwriting, parents pushed via the category
map.  The loop has no counter in the source; `fuel` only bounds the number of
iterations so the model is total, and `chainWalk_isSome` below shows the
bound `2 * cats.length + 1` is never exhausted. -/
def chainWalk (cats : List Category) : Nat → List Category → List String → PDict → Option PDict
  | _, [], _, props => some props
  | 0, _ :: _, _, _ => none
  | fuel + 1, current :: rest, visited, props =>
      if current.id ∈ visited then chainWalk cats fuel rest visited props
      else
        chainWalk cats fuel (chainNext cats current rest) (current.id :: visited)
          (mergeCatProps props current.properties)

/-- The property map contributed by one visualization candidate's category
inheritance chain. -/
def catChainProps (cats : List Category) (c : Category) : PDict :=
  (chainWalk cats (2 * cats.length + 1) [c] [] []).getD []

theorem categoryMapFind_mem (cats : List Category) (pid : String) (parent : Category)
    (h : categoryMapFind cats pid = some parent) : parent ∈ cats := by
  have haux : ∀ (l : List Category) (acc : Option Category),
      l.foldl (fun acc c => if c.id = pid then some c else acc) acc = some parent →
      acc = some parent ∨ parent ∈ l := by
    intro l
    induction l with
    | nil => intro acc h2; left; simpa using h2
    | cons c cs ihl =>
        intro acc h2
        rw [List.foldl_cons] at h2
        rcases ihl _ h2 with h3 | h3
        · have h4 : (if c.id = pid then some c else acc) = some parent := h3
          by_cases hc : c.id = pid
          · rw [if_pos hc] at h4
            right
            rw [← Option.some_injective _ h4]
            exact List.mem_cons_self c cs
          · rw [if_neg hc] at h4; left; exact h4
        · right; right; exact h3
  rcases haux cats none h with h2 | h2
  · simp at h2
  · exact h2

theorem chainNext_length (cats : List Category) (current : Category) (rest : List Category) :
    (chainNext cats current rest).length ≤ rest.length + 1 := by
  rcases hif : current.inheritsFrom with _ | pid
  · simp [chainNext, hif]
  · by_cases he : pid = ""
    · simp [chainNext, hif, he]
    · rcases hcm : categoryMapFind cats pid with _ | parent
      · simp [chainNext, hif, he, hcm]
      · simp [chainNext, hif, he, hcm]

theorem chainNext_mem (cats : List Category) (current : Category) (rest : List Category)
    (x : Category) (hx : x ∈ chainNext cats current rest) : x ∈ rest ∨ x ∈ cats := by
  rcases hif : current.inheritsFrom with _ | pid
  · left; simpa [chainNext, hif] using hx
  · by_cases he : pid = ""
    · left; simpa [chainNext, hif, he] using hx
    · rcases hcm : categoryMapFind cats pid with _ | parent
      · left; simpa [chainNext, hif, he, hcm] using hx
      · simp only [chainNext, hif, he, if_false, hcm] at hx
        rcases List.mem_append.mp hx with h1 | h1
        · left; exact h1
        · right
          rw [List.mem_singleton] at h1
          subst h1
          exact categoryMapFind_mem cats pid x hcm

theorem chainWalk_isSome (cats : List Category) :
    ∀ (fuel : Nat) (queue : List Category) (visited : List String) (props : PDict),
      (∀ x ∈ queue, x.id ∈ cats.map Category.id) →
      2 * ((cats.map Category.id).toFinset \ visited.toFinset).card + queue.length ≤ fuel →
      (chainWalk cats fuel queue visited props).isSome := by
  intro fuel
  induction fuel with
  | zero =>
      intro queue visited props _ hf
      match queue with
      | [] => simp [chainWalk]
      | q :: rest => simp only [List.length_cons] at hf; omega
  | succ fuel ih =>
      intro queue visited props hq hf
      match queue with
      | [] => simp [chainWalk]
      | current :: rest =>
          by_cases hv : current.id ∈ visited
          · rw [chainWalk, if_pos hv]
            refine ih rest visited props (fun x hx => hq x (List.mem_cons_of_mem _ hx)) ?_
            simp only [List.length_cons] at hf
            omega
          · rw [chainWalk, if_neg hv]
            have hcur : current.id ∈ (cats.map Category.id).toFinset \ visited.toFinset := by
              rw [Finset.mem_sdiff, List.mem_toFinset, List.mem_toFinset]
              exact ⟨hq current (List.mem_cons_self _ _), hv⟩
            have hcard :
                (((cats.map Category.id).toFinset \ (current.id :: visited).toFinset).card) =
                  ((cats.map Category.id).toFinset \ visited.toFinset).card - 1 := by
              have hset : (cats.map Category.id).toFinset \ (current.id :: visited).toFinset =
                  ((cats.map Category.id).toFinset \ visited.toFinset).erase current.id := by
                ext a
                simp only [Finset.mem_sdiff, List.mem_toFinset, List.mem_cons,
                  Finset.mem_erase, not_or]
                constructor
                · rintro ⟨ha, hb, hc⟩; exact ⟨hb, ha, hc⟩
                · rintro ⟨ha, hb, hc⟩; exact ⟨hb, ha, hc⟩
              rw [hset, Finset.card_erase_of_mem hcur]
            have hpos : 0 < ((cats.map Category.id).toFinset \ visited.toFinset).card :=
              Finset.card_pos.mpr ⟨current.id, hcur⟩
            have hlen : (chainNext cats current rest).length ≤ rest.length + 1 :=
              chainNext_length cats current rest
            have hmem2 : ∀ x ∈ chainNext cats current rest, x.id ∈ cats.map Category.id := by
              intro x hx
              rcases chainNext_mem cats current rest x hx with h1 | h1
              · exact hq x (List.mem_cons_of_mem _ h1)
              · exact List.mem_map_of_mem Category.id h1
            refine ih (chainNext cats current rest) (current.id :: visited) _ hmem2 ?_
            simp only [List.length_cons] at hf
            omega

/-- The map produced by the chain walk never holds duplicate keys. -/
theorem mergeCatProps_nodup (l : List CatProp) :
    ∀ (props : PDict), (dictKeys props).Nodup → (dictKeys (mergeCatProps props l)).Nodup := by
  induction l with
  | nil => intro props h; simpa [mergeCatProps] using h
  | cons p rest ih =>
      intro props h
      have hstep : mergeCatProps props (p :: rest) =
          mergeCatProps
            (if (dictFind props p.name).isSome then props
             else if p.name = "transparency" then
               dictInsert props p.name (Val.num (transparencyValue (unwrapValue p.value)))
             else dictInsert props p.name (unwrapValue p.value)) rest := by
        simp only [mergeCatProps, List.foldl_cons]
      rw [hstep]
      apply ih
      by_cases h1 : (dictFind props p.name).isSome
      · rw [if_pos h1]; exact h
      · rw [if_neg h1]
        by_cases h2 : p.name = "transparency"
        · rw [if_pos h2]; exact dictKeys_insert_nodup _ _ _ h
        · rw [if_neg h2]; exact dictKeys_insert_nodup _ _ _ h

theorem chainWalk_nodup (cats : List Category) :
    ∀ (fuel : Nat) (queue : List Category) (visited : List String) (props : PDict),
      (dictKeys props).Nodup →
      ∀ r, chainWalk cats fuel queue visited props = some r → (dictKeys r).Nodup := by
  intro fuel
  induction fuel with
  | zero =>
      intro queue visited props h r hr
      match queue with
      | [] => simp only [chainWalk] at hr; rwa [← Option.some_injective _ hr]
      | q :: rest => simp [chainWalk] at hr
  | succ fuel ih =>
      intro queue visited props h r hr
      match queue with
      | [] => simp only [chainWalk] at hr; rwa [← Option.some_injective _ hr]
      | current :: rest =>
          by_cases hv : current.id ∈ visited
          · rw [chainWalk, if_pos hv] at hr
            exact ih rest visited props h r hr
          · rw [chainWalk, if_neg hv] at hr
            exact ih _ _ _ (mergeCatProps_nodup _ _ h) r hr

theorem catChainProps_nodup (cats : List Category) (c : Category) :
    (dictKeys (catChainProps cats c)).Nodup := by
  unfold catChainProps
  match hr : chainWalk cats (2 * cats.length + 1) [c] [] [] with
  | none => simp [dictKeys]
  | some r =>
      simpa using chainWalk_nodup cats _ [c] [] [] (by simp [dictKeys]) r hr

/-- Lines 103-108 of crawler.py: a category is a visualization candidate for
an entity when it is attached to that entity and is named "visualization" or
"geometry" case-insensitively. -/
def isVisCat (entityId : String) (c : Category) : Bool :=
  c.entityId = entityId &&
    (strLower c.name = "visualization" || strLower c.name = "geometry")

/-- The `(category['id'], properties)` pairs collected for an entity's own
visualization candidates. -/
def visCandidates (cats : List Category) (entityId : String) : List (String × PDict) :=
  (cats.filter (isVisCat entityId)).map (fun c => (c.id, catChainProps cats c))

/-- `vis_candidates.sort(key=..., reverse=True)` followed by taking element 0:
the first-occurring pair with the largest category id (Python's sort is
stable, so ties keep source order). -/
def chooseCandidate : List (String × PDict) → Option (String × PDict)
  | [] => none
  | x :: rest =>
      match chooseCandidate rest with
      | none => some x
      | some best => if strLt x.1 best.1 then some best else some x

theorem chooseCandidate_mem : ∀ (l : List (String × PDict)) (x : String × PDict),
    chooseCandidate l = some x → x ∈ l := by
  intro l
  induction l with
  | nil => intro x hx; simp [chooseCandidate] at hx
  | cons y rest ih =>
      intro x hx
      rcases hr : chooseCandidate rest with _ | best
      · simp only [chooseCandidate, hr, Option.some.injEq] at hx
        subst hx
        exact List.mem_cons_self _ _
      · simp only [chooseCandidate, hr] at hx
        by_cases hlt : strLt y.1 best.1
        · rw [if_pos hlt, Option.some.injEq] at hx
          subst hx
          exact List.mem_cons_of_mem _ (ih _ hr)
        · rw [if_neg hlt, Option.some.injEq] at hx
          subst hx
          exact List.mem_cons_self _ _

theorem visCandidates_nodup (cats : List Category) (eid : String) (x : String × PDict)
    (hx : x ∈ visCandidates cats eid) : (dictKeys x.2).Nodup := by
  unfold visCandidates at hx
  rcases List.mem_map.mp hx with ⟨c, _, hceq⟩
  rw [← hceq]
  exact catChainProps_nodup cats c

/-- Sequential resolution and merge of the base entities named in
`inheritsFrom` (crawler.py 86-99): each base's resolved visualization (or the
empty dict when it resolves to `None`) is merged over the accumulator, so
later bases overwrite earlier ones. -/
def foldBaseProps (f : String → Except Unit (Option PDict)) :
    List String → PDict → Except Unit PDict
  | [], acc => .ok acc
  | b :: rest, acc =>
      match f b with
      | .error e => .error e
      | .ok bv => foldBaseProps f rest (dictMerge acc (bv.getD []))

/-- `extract_visualization` (crawler.py 72-159).  The source's `categories`
and `base_entities_map` parameters are passed through unused and are omitted
here.  Entity-level `inheritsFrom` recursion is unguarded in the source
(a cyclic chain raises `RecursionError`); `fuel` models the recursion-depth
budget and its exhaustion is the `.error` case, like any other exception. -/
def extractVisualization : Nat → List Category → List Entity → String →
    Except Unit (Option PDict)
  | 0, _, _, _ => .error ()
  | fuel + 1, cats, entities, entityId =>
      match entities.find? (fun e => e.id = entityId) with
      | none => .ok none
      | some entity =>
          match foldBaseProps (fun b => extractVisualization fuel cats entities b)
              entity.inheritsFrom [] with
          | .error e => .error e
          | .ok baseProps =>
              let combined :=
                match chooseCandidate (visCandidates cats entityId) with
                | none => baseProps
                | some c => dictMerge baseProps c.2
              .ok (if combined.isEmpty then none else some combined)

/-- C3: for every input, even one whose category-inheritance pointers form a
cycle, the category chain walk of the resolver terminates: with the fuel
budget `2 * cats.length + 1` the queue is exhausted normally (the visited set
makes every revisited category id a skip), so the walk returns a result. -/
theorem catChain_terminates (cats : List Category) (c : Category) (hc : c ∈ cats) :
    (chainWalk cats (2 * cats.length + 1) [c] [] []).isSome := by
  apply chainWalk_isSome
  · intro x hx
    rw [List.mem_singleton] at hx
    subst hx
    exact List.mem_map_of_mem Category.id hc
  · have hlen : (cats.map Category.id).toFinset.card ≤ cats.length := by
      have h1 := List.toFinset_card_le (cats.map Category.id)
      simpa using h1
    simp only [List.toFinset_nil, Finset.sdiff_empty, List.length_singleton]
    omega

/-- Concrete run of `catChain_terminates` on the cycle `C1 -> C2 -> C1`. -/
def cycCatA : Category :=
  ⟨"c1", "Visualization", "e1", some "c2", [⟨"shape", .plain (.str "BOX")⟩]⟩

def cycCatB : Category :=
  ⟨"c2", "Visualization", "e1", some "c1", [⟨"color", .plain (.num 5)⟩]⟩

theorem catChain_terminates_witness :
    (chainWalk [cycCatA, cycCatB] (2 * [cycCatA, cycCatB].length + 1)
      [cycCatA] [] []).isSome :=
  catChain_terminates [cycCatA, cycCatB] cycCatA (List.mem_cons_self _ _)

/-- C1: when the resolver succeeds for an entity and the chosen visualization
candidate's own category chain defines a property `P` with value `v`, the
result maps `P` to `v`: in the final merge the entity's directly-attached
category properties overwrite whatever the entity-level base inheritance
accumulated for `P`. -/
theorem extractVisualization_own_overrides_base
    (fuel : Nat) (cats : List Category) (entities : List Entity) (eid : String)
    (m : PDict) (cid : String) (props : PDict) (P : String) (v : Val)
    (hres : extractVisualization fuel cats entities eid = .ok (some m))
    (hchosen : chooseCandidate (visCandidates cats eid) = some (cid, props))
    (hP : dictFind props P = some v) :
    dictFind m P = some v := by
  match fuel with
  | 0 => simp [extractVisualization] at hres
  | fuel + 1 =>
      rcases hfind : entities.find? (fun e => e.id = eid) with _ | entity
      · simp [extractVisualization, hfind] at hres
      · rcases hbase : foldBaseProps (fun b => extractVisualization fuel cats entities b)
            entity.inheritsFrom [] with e | bp
        · simp [extractVisualization, hfind, hbase] at hres
        · have hres2 :
              (if (dictMerge bp props).isEmpty then (none : Option PDict)
               else some (dictMerge bp props)) = some m := by
            simpa [extractVisualization, hfind, hbase, hchosen] using hres
          by_cases hemp : (dictMerge bp props).isEmpty
          · rw [if_pos hemp] at hres2
            exact absurd hres2 (by simp)
          · rw [if_neg hemp] at hres2
            rw [← Option.some_injective _ hres2]
            exact dictFind_merge_right props bp P v
              (visCandidates_nodup cats eid (cid, props) (chooseCandidate_mem _ _ hchosen)) hP

/-- Concrete instantiation data for `extractVisualization_own_overrides_base`:
entity `e` inherits from base `b`; both carry a visualization category
defining `color`, the entity with value 9, the base with value 7. -/
def ownBaseEntE : Entity := ⟨"e", "E", "T", none, ["b"]⟩

def ownBaseEntB : Entity := ⟨"b", "B", "T", none, []⟩

def ownBaseCatE : Category :=
  ⟨"ce", "visualization", "e", none, [⟨"color", .plain (.num 9)⟩]⟩

def ownBaseCatB : Category :=
  ⟨"cb", "visualization", "b", none, [⟨"color", .plain (.num 7)⟩]⟩

def ownBaseCats : List Category := [ownBaseCatE, ownBaseCatB]

def ownBaseEnts : List Entity := [ownBaseEntE, ownBaseEntB]

theorem extractVisualization_own_overrides_base_witness :
    dictFind [("color", Val.num 9)] "color" = some (Val.num 9) :=
  extractVisualization_own_overrides_base 2 ownBaseCats ownBaseEnts "e"
    [("color", Val.num 9)] "ce" [("color", Val.num 9)] "color" (Val.num 9)
    (by decide) (by decide) (by decide)

/-- Two-step evaluation of the chain walk: start category `c1`, parent `c2`,
`c2` with no further parent. -/
theorem chainWalk_pair (cats : List Category) (c1 c2 : Category) (fuel : Nat)
    (hin1 : c1.inheritsFrom = some c2.id) (hc2 : c2.id ≠ "")
    (hfind : categoryMapFind cats c2.id = some c2) (hne : c2.id ≠ c1.id)
    (hin2 : c2.inheritsFrom = none) :
    chainWalk cats (fuel + 1 + 1) [c1] [] [] =
      some (mergeCatProps (mergeCatProps [] c1.properties) c2.properties) := by
  have hnext1 : chainNext cats c1 [] = [c2] := by
    simp [chainNext, hin1, hc2, hfind]
  have hnext2 : chainNext cats c2 [] = [] := by
    simp [chainNext, hin2]
  rw [chainWalk, if_neg (List.not_mem_nil c1.id), hnext1,
    chainWalk, if_neg (by simpa using hne), hnext2, chainWalk]

/-- Scenario data for the category-chain merge: an entity with a single
attached visualization category `C1` that inherits from `C2`. -/
def chainEnt (eid en etn : String) : Entity := ⟨eid, en, etn, none, []⟩

def chainCat1 (c1id eid c2id : String) : Category :=
  ⟨c1id, "Visualization", eid, some c2id, [⟨"shape", .plain (.str "BOX")⟩]⟩

def chainCat2 (c2id c2n c2ent : String) : Category :=
  ⟨c2id, c2n, c2ent, none,
    [⟨"shape", .plain (.str "SPHERE")⟩, ⟨"color", .plain (.num 5)⟩]⟩

def chainCats (c1id eid c2id c2n c2ent : String) : List Category :=
  [chainCat1 c1id eid c2id, chainCat2 c2id c2n c2ent]

/-- C2: an entity with exactly one attached visualization category `C1`,
where `C1` inherits from `C2`, `C1` defines `{shape: BOX}` and `C2` defines
`{shape: SPHERE, color: 5}`, and no entity-level inheritance, resolves to
`{shape: BOX, color: 5}`: the walk merges a property only when its name is
not already present, so the nearer category's `shape` wins while `color` is
inherited. -/
theorem extractVisualization_chain_merge
    (f : Nat) (eid en etn c1id c2id c2n c2ent : String)
    (hne : c1id ≠ c2id) (hc2 : c2id ≠ "") (hatt : c2ent ≠ eid) :
    extractVisualization (f + 1) (chainCats c1id eid c2id c2n c2ent)
      [chainEnt eid en etn] eid =
      .ok (some [("shape", Val.str "BOX"), ("color", Val.num 5)]) := by
  have hmap : categoryMapFind (chainCats c1id eid c2id c2n c2ent) c2id =
      some (chainCat2 c2id c2n c2ent) := by
    simp [categoryMapFind, chainCats, chainCat1, chainCat2, hne]
  have hpair := chainWalk_pair (chainCats c1id eid c2id c2n c2ent)
      (chainCat1 c1id eid c2id) (chainCat2 c2id c2n c2ent) 3
      (by simp [chainCat1, chainCat2]) (by simpa [chainCat2] using hc2) hmap
      (by simpa [chainCat1, chainCat2] using Ne.symm hne) (by simp [chainCat2])
  have hprops : catChainProps (chainCats c1id eid c2id c2n c2ent)
      (chainCat1 c1id eid c2id) = [("shape", Val.str "BOX"), ("color", Val.num 5)] := by
    unfold catChainProps
    have h5 : 2 * (chainCats c1id eid c2id c2n c2ent).length + 1 = 3 + 1 + 1 := rfl
    rw [h5, hpair]
    simp [chainCat1, chainCat2, mergeCatProps, dictFind, dictInsert, unwrapValue]
  have hcand : visCandidates (chainCats c1id eid c2id c2n c2ent) eid =
      [(c1id, catChainProps (chainCats c1id eid c2id c2n c2ent)
        (chainCat1 c1id eid c2id))] := by
    simp [visCandidates, chainCats, isVisCat, chainCat1, chainCat2, hatt,
      (by decide : strLower "Visualization" = "visualization")]
  have hfind : (([chainEnt eid en etn] : List Entity).find? (fun e => e.id = eid)) =
      some (chainEnt eid en etn) := by simp [chainEnt]
  rw [hprops] at hcand
  simp [extractVisualization, hfind, chainEnt, foldBaseProps, hcand, chooseCandidate,
    dictMerge, dictInsert]

theorem extractVisualization_chain_merge_witness :
    extractVisualization 1 (chainCats "C1" "e1" "C2" "N" "x")
      [chainEnt "e1" "E" "T"] "e1" =
      .ok (some [("shape", Val.str "BOX"), ("color", Val.num 5)]) :=
  extractVisualization_chain_merge 0 "e1" "E" "T" "C1" "C2" "N" "x"
    (by decide) (by decide) (by decide)

/-! ### Part-data generation (`get_part_data`, crawler.py 162-240) -/

/-- The Python float literal `0.1` used as the size default. -/
def ratTenth : Rat := ⟨1, 10, by decide, Nat.coprime_one_left 10⟩

/-- `float(vis.get(key, default))`: the default passes through unchanged, a
present value is coerced with Python `float` and raises when unparsable. -/
def getFloatD (vis : PDict) (k : String) (dflt : Rat) : Except Unit Rat :=
  match dictFind vis k with
  | none => .ok dflt
  | some v =>
      match pyFloat? v with
      | some q => .ok q
      | none => .error ()

/-- Lines 188-193 of crawler.py: `int(color_str) if color_str else default`,
falling back to the default gray on any conversion failure. -/
def colorOf (vis : PDict) : Int :=
  let cv := (dictFind vis "color").getD (Val.str "")
  if pyTruthy cv then (pyInt? cv).getD 12632256 else 12632256

structure PartData : Type where
  shape : String
  uuid : String
  name : String
  color : Int
  transparency : Rat
  lengthX : Rat
  lengthY : Rat
  lengthZ : Rat
  radius : Rat
deriving DecidableEq, Repr

/-- `get_part_data` (crawler.py 162-240): resolve the entity's visualization,
normalize the shape string, read dimensions and color, and dispatch on the
shape.  The recognized branches are `BOX`, `SPHERE` and `CYLINDER`; every
other non-empty, non-`NONE` shape (including `CONE`) takes the fallback
branch, which rewrites the shape to `BOX`. -/
def getPartData (fuel : Nat) (cats : List Category) (entities : List Entity)
    (entity : Entity) : Except Unit (Option PartData) :=
  match extractVisualization fuel cats entities entity.id with
  | .error e => .error e
  | .ok none => .ok none
  | .ok (some vis) =>
      let shape := strUpper (strTrim (pyStr ((dictFind vis "shape").getD (Val.str ""))))
      if shape = "" ∨ shape = "NONE" then .ok none
      else
        match getFloatD vis "sizeX" ratTenth with
        | .error e => .error e
        | .ok sizeX =>
        match getFloatD vis "sizeY" ratTenth with
        | .error e => .error e
        | .ok sizeY =>
        match getFloatD vis "sizeZ" ratTenth with
        | .error e => .error e
        | .ok sizeZ =>
        match getFloatD vis "radius" 0 with
        | .error e => .error e
        | .ok radius =>
        let color := colorOf vis
        match getFloatD vis "transparency" 0 with
        | .error e => .error e
        | .ok transparency =>
            .ok (some (
              if shape = "BOX" then
                { shape := shape, uuid := entity.id, name := entity.name,
                  color := color, transparency := transparency,
                  lengthX := sizeX, lengthY := sizeY, lengthZ := sizeZ,
                  radius := radius }
              else if shape = "SPHERE" then
                { shape := shape, uuid := entity.id, name := entity.name,
                  color := color, transparency := transparency,
                  lengthX := 0, lengthY := 0, lengthZ := 0,
                  radius := if 0 < radius then radius else max sizeX (max sizeY sizeZ) / 2 }
              else if shape = "CYLINDER" then
                { shape := shape, uuid := entity.id, name := entity.name,
                  color := color, transparency := transparency,
                  lengthX := 0, lengthY := sizeY, lengthZ := 0,
                  radius := if 0 < radius then radius else max sizeX sizeZ / 2 }
              else
                { shape := "BOX", uuid := entity.id, name := entity.name,
                  color := color, transparency := transparency,
                  lengthX := sizeX, lengthY := sizeY, lengthZ := sizeZ,
                  radius := radius }))

/-- C6 counterexample data: an entity whose resolved shape is `CONE`. -/
def coneEnt : Entity := ⟨"p1", "Cone", "T", none, []⟩

def coneCat : Category :=
  ⟨"cc", "visualization", "p1", none,
    [⟨"shape", .plain (.str "CONE")⟩, ⟨"radius", .plain (.num 2)⟩,
     ⟨"sizeX", .plain (.num 1)⟩, ⟨"sizeY", .plain (.num 1)⟩,
     ⟨"sizeZ", .plain (.num 1)⟩]⟩

/-- C6 counterexample: `CONE` is not a recognized shape of `get_part_data` —
the part generated for a resolved shape `CONE` comes out of the generic
fallback with its shape rewritten to `BOX`, refuting the claim that the
dispatch recognizes `CONE`. -/
theorem getPartData_cone_not_recognized :
    getPartData 2 [coneCat] [coneEnt] coneEnt =
      .ok (some ⟨"BOX", "p1", "Cone", 12632256, 0, 1, 1, 1, 2⟩) ∧
    ("BOX" : String) ≠ "CONE" := by
  constructor
  · decide
  · decide

/-- C6 (amended): part-data generation dispatches on the upper-cased shape
string recognizing exactly `BOX`, `SPHERE` and `CYLINDER`; any other
non-empty, non-`NONE` value — `CONE` included — falls back to a `BOX` using
`sizeX/sizeY/sizeZ` as dimensions; and for `CYLINDER` and `SPHERE` the
effective radius is the explicit radius when positive, otherwise half the
maximum of the relevant size dimensions (`sizeX/sizeZ` for cylinders, all
three for spheres). -/
theorem getPartData_shape_dispatch
    (fuel : Nat) (cats : List Category) (entities : List Entity) (entity : Entity)
    (vis : PDict) (S : String) (x y z r t : Rat)
    (hvis : extractVisualization fuel cats entities entity.id = .ok (some vis))
    (hshape : strUpper (strTrim (pyStr ((dictFind vis "shape").getD (Val.str "")))) = S)
    (hS1 : S ≠ "") (hS2 : S ≠ "NONE")
    (hx : getFloatD vis "sizeX" ratTenth = .ok x)
    (hy : getFloatD vis "sizeY" ratTenth = .ok y)
    (hz : getFloatD vis "sizeZ" ratTenth = .ok z)
    (hr : getFloatD vis "radius" 0 = .ok r)
    (ht : getFloatD vis "transparency" 0 = .ok t) :
    ∃ p, getPartData fuel cats entities entity = .ok (some p) ∧
      p.shape = (if S = "BOX" ∨ S = "SPHERE" ∨ S = "CYLINDER" then S else "BOX") ∧
      (S = "SPHERE" → p.radius = (if 0 < r then r else max x (max y z) / 2)) ∧
      (S = "CYLINDER" → p.radius = (if 0 < r then r else max x z / 2)) ∧
      ((S ≠ "BOX" ∧ S ≠ "SPHERE" ∧ S ≠ "CYLINDER") →
        p.shape = "BOX" ∧ p.lengthX = x ∧ p.lengthY = y ∧ p.lengthZ = z ∧
          p.radius = r) := by
  have hrun : getPartData fuel cats entities entity =
      .ok (some (
        if S = "BOX" then
          { shape := S, uuid := entity.id, name := entity.name,
            color := colorOf vis, transparency := t,
            lengthX := x, lengthY := y, lengthZ := z, radius := r }
        else if S = "SPHERE" then
          { shape := S, uuid := entity.id, name := entity.name,
            color := colorOf vis, transparency := t,
            lengthX := 0, lengthY := 0, lengthZ := 0,
            radius := if 0 < r then r else max x (max y z) / 2 }
        else if S = "CYLINDER" then
          { shape := S, uuid := entity.id, name := entity.name,
            color := colorOf vis, transparency := t,
            lengthX := 0, lengthY := y, lengthZ := 0,
            radius := if 0 < r then r else max x z / 2 }
        else
          { shape := "BOX", uuid := entity.id, name := entity.name,
            color := colorOf vis, transparency := t,
            lengthX := x, lengthY := y, lengthZ := z, radius := r })) := by
    rw [getPartData, hvis]
    simp only [hshape, hx, hy, hz, hr, ht, hS1, hS2, or_self, if_false, false_or]
  refine ⟨_, hrun, ?_, ?_, ?_, ?_⟩
  · by_cases hb : S = "BOX"
    · simp [hb]
    · by_cases hs : S = "SPHERE"
      · simp [hb, hs]
      · by_cases hc : S = "CYLINDER"
        · simp [hb, hs, hc]
        · simp [hb, hs, hc]
  · intro hs
    simp [hs]
  · intro hc
    by_cases hb : S = "BOX"
    · rw [hb] at hc; exact absurd hc (by decide)
    · by_cases hs : S = "SPHERE"
      · rw [hs] at hc; exact absurd hc (by decide)
      · simp [hb, hs, hc]
  · rintro ⟨hb, hs, hc⟩
    simp [hb, hs, hc]

/-- Witness data for `getPartData_shape_dispatch`: a cylinder with an
explicit positive radius. -/
def cylEnt : Entity := ⟨"c9", "Cyl", "T", none, []⟩

def cylCat : Category :=
  ⟨"cy", "geometry", "c9", none,
    [⟨"shape", .plain (.str "cylinder")⟩, ⟨"radius", .plain (.num 2)⟩,
     ⟨"sizeX", .plain (.num 1)⟩, ⟨"sizeY", .plain (.num 3)⟩,
     ⟨"sizeZ", .plain (.num 1)⟩]⟩

def cylVis : PDict :=
  [("shape", Val.str "cylinder"), ("radius", Val.num 2), ("sizeX", Val.num 1),
   ("sizeY", Val.num 3), ("sizeZ", Val.num 1)]

/-! ### Entity graph builder (`build_entity_tree`, crawler.py 60-69) and the
id normalization of `generate_satellite_data` (crawler.py 376-381) -/

/-- `tree[parent_id].append(entity)` on a `defaultdict(list)`. -/
def treeAppend (tree : List (String × List Entity)) (k : String) (e : Entity) :
    List (String × List Entity) :=
  dictInsert tree k ((dictFind tree k).getD [] ++ [e])

/-- One entity of the `build_entity_tree` loop: appended under
`str(parentId)` exactly when the `parentId` key is present and its value is
truthy (`None` and the empty string are falsy; the strings `"null"` and
`"None"` are truthy). -/
def entityTreeStep (tree : List (String × List Entity)) (e : Entity) :
    List (String × List Entity) :=
  match e.parentId with
  | none => tree
  | some pid => if pyIdTruthy pid then treeAppend tree (pyIdStr pid) e else tree

/-- `build_entity_tree` (crawler.py 60-69). -/
def buildEntityTree (entities : List Entity) : List (String × List Entity) :=
  entities.foldl entityTreeStep []

/-- Lines 377-380 of crawler.py: `entity['id'] = str(entity.get('id', ''))`
(identity here, ids being modelled as strings) and, when the key is present,
`entity['parentId'] = str(entity['parentId'])` — so a JSON-null parent
becomes the literal string `"None"`. -/
def normalizeEntity (e : Entity) : Entity :=
  { e with parentId := e.parentId.map (fun p => PyId.str (pyIdStr p)) }

theorem entityTreeStep_mem (t : List (String × List Entity)) (a : Entity) (k : String)
    (x : Entity) (hx : x ∈ (dictFind (entityTreeStep t a) k).getD []) :
    x ∈ (dictFind t k).getD [] ∨
      (∃ pid, a.parentId = some pid ∧ pyIdTruthy pid = true ∧ pyIdStr pid = k ∧ x = a) := by
  rcases hp : a.parentId with _ | pid
  · left; simpa [entityTreeStep, hp] using hx
  · by_cases ht : pyIdTruthy pid
    · simp only [entityTreeStep, hp, ht, if_true] at hx
      unfold treeAppend at hx
      by_cases hk : pyIdStr pid = k
      · rw [hk, dictFind_insert_self] at hx
        simp only [Option.getD_some] at hx
        rcases List.mem_append.mp hx with h1 | h1
        · left; exact h1
        · right; exact ⟨pid, rfl, ht, hk, by simpa using h1⟩
      · rw [dictFind_insert_ne _ _ _ _ hk] at hx
        left; exact hx
    · left; simpa [entityTreeStep, hp, ht] using hx

theorem entityTree_fold_mem (l : List Entity) :
    ∀ (t : List (String × List Entity)) (k : String) (x : Entity),
      x ∈ (dictFind (l.foldl entityTreeStep t) k).getD [] →
      x ∈ (dictFind t k).getD [] ∨
        (∃ pid, x.parentId = some pid ∧ pyIdTruthy pid = true ∧ pyIdStr pid = k) := by
  induction l with
  | nil => intro t k x hx; left; exact hx
  | cons a l ih =>
      intro t k x hx
      rw [List.foldl_cons] at hx
      rcases ih _ k x hx with h1 | h1
      · rcases entityTreeStep_mem t a k x h1 with h2 | h2
        · left; exact h2
        · rcases h2 with ⟨pid, hp, ht, hk, hxa⟩
          right
          refine ⟨pid, ?_, ht, hk⟩
          rw [hxa]
          exact hp
      · right; exact h1

theorem entityTree_fold_mono (l : List Entity) :
    ∀ (t : List (String × List Entity)) (k : String) (x : Entity),
      x ∈ (dictFind t k).getD [] →
      x ∈ (dictFind (l.foldl entityTreeStep t) k).getD [] := by
  induction l with
  | nil => intro t k x hx; exact hx
  | cons a l ih =>
      intro t k x hx
      rw [List.foldl_cons]
      apply ih
      rcases hp : a.parentId with _ | pid
      · simpa [entityTreeStep, hp] using hx
      · by_cases ht : pyIdTruthy pid
        · simp only [entityTreeStep, hp, ht, if_true]
          unfold treeAppend
          by_cases hk : pyIdStr pid = k
          · rw [hk, dictFind_insert_self, Option.getD_some]
            exact List.mem_append_left _ hx
          · rwa [dictFind_insert_ne _ _ _ _ hk]
        · simpa [entityTreeStep, hp, ht] using hx

theorem entityTree_fold_mem_self (l : List Entity) :
    ∀ (t : List (String × List Entity)) (e : Entity) (p : String),
      e ∈ l → e.parentId = some (PyId.str p) → p ≠ "" →
      e ∈ (dictFind (l.foldl entityTreeStep t) p).getD [] := by
  induction l with
  | nil => intro t e p h _ _; exact absurd h (List.not_mem_nil e)
  | cons a l ih =>
      intro t e p hmem hp hne
      rw [List.foldl_cons]
      rcases List.mem_cons.mp hmem with h1 | h1
      · subst h1
        apply entityTree_fold_mono
        simp only [entityTreeStep, hp, pyIdTruthy, pyIdStr]
        rw [if_pos (by simpa using hne)]
        unfold treeAppend
        rw [dictFind_insert_self, Option.getD_some]
        exact List.mem_append_right _ (List.mem_singleton_self e)
      · exact ih _ e p h1 hp hne

/-- C8 counterexample: an entity whose `parentId` is the string `"null"` IS
appended to a child list by `build_entity_tree` (under the literal key
`"null"`), and the generator's `str()` normalization renders a JSON-null
parent as the non-empty string `"None"`, not as the empty string. -/
def nullParentEnt : Entity := ⟨"x", "X", "T", some (.str "null"), []⟩

theorem buildEntityTree_null_appended :
    dictFind (buildEntityTree [nullParentEnt]) "null" = some [nullParentEnt] ∧
    (normalizeEntity ⟨"y", "Y", "T", some PyId.null, []⟩).parentId =
      some (PyId.str "None") ∧ ("None" : String) ≠ "" := by
  refine ⟨by decide, by decide, by decide⟩

/-- C8 (amended): only an absent, JSON-null, or empty-string `parentId` is
treated as "no parent" by the entity graph builder — such entities are never
appended to any child list; but after the generator's `str()` normalization a
JSON-null parent is the truthy string `"None"`, and any entity whose
`parentId` is a non-empty string (the strings `"null"` and `"None"`
included) IS appended, in source order, under that literal key. -/
theorem buildEntityTree_parent_handling :
    (∀ (entities : List Entity) (e : Entity) (k : String),
        (e.parentId = none ∨ e.parentId = some PyId.null ∨
          e.parentId = some (PyId.str "")) →
        e ∉ (dictFind (buildEntityTree entities) k).getD []) ∧
    (∀ (entities : List Entity) (e : Entity) (p : String), e ∈ entities →
        e.parentId = some (PyId.str p) → p ≠ "" →
        e ∈ (dictFind (buildEntityTree entities) p).getD []) := by
  constructor
  · intro entities e k hfalsy hmem
    rcases entityTree_fold_mem entities [] k e hmem with h1 | h1
    · simp [dictFind] at h1
    · rcases h1 with ⟨pid, hp, ht, _⟩
      rcases hfalsy with h2 | h2 | h2 <;> rw [h2] at hp
      · exact Option.noConfusion hp
      · rw [← Option.some_injective _ hp] at ht
        simp [pyIdTruthy] at ht
      · rw [← Option.some_injective _ hp] at ht
        simp [pyIdTruthy] at ht
  · intro entities e p hmem hp hne
    exact entityTree_fold_mem_self entities [] e p hmem hp hne

theorem buildEntityTree_parent_handling_witness :
    (⟨"z", "Z", "T", some (PyId.str ""), []⟩ : Entity) ∉
      (dictFind (buildEntityTree [⟨"z", "Z", "T", some (PyId.str ""), []⟩]) "").getD [] ∧
    nullParentEnt ∈ (dictFind (buildEntityTree [nullParentEnt]) "null").getD [] :=
  ⟨buildEntityTree_parent_handling.1 _ _ "" (Or.inr (Or.inr rfl)),
   buildEntityTree_parent_handling.2 [nullParentEnt] nullParentEnt "null"
     (List.mem_singleton_self _) rfl (by decide)⟩

/-! ### Output tree builder (`build_output_tree`, crawler.py 243-328)

`ONodeData` carries the scalar fields of an output node dict; a field whose
value is `none` models a key the source never set.  Rotations are converted
by the source with `math.radians` (multiplication by the irrational `pi/180`)
at lines 284-289; this model records the degree value unchanged, because no
downstream code or claim inspects the numeric rotation and `pi` has no exact
rational representation.  Positions are copied in meters, and size, radius
and transparency are copied verbatim (lines 291-299). -/

structure ONodeData : Type where
  name : String
  uuid : String
  rotX : Option Rat := none
  rotY : Option Rat := none
  rotZ : Option Rat := none
  posX : Option Rat := none
  posY : Option Rat := none
  posZ : Option Rat := none
  sizeX : Option Val := none
  sizeY : Option Val := none
  sizeZ : Option Val := none
  radius : Option Val := none
  transparency : Option Val := none
  partUuid : Option String := none
  partName : Option String := none
deriving DecidableEq, Repr

inductive ONode : Type where
  | mk (data : ONodeData) (children : List ONode)

def ONode.data : ONode → ONodeData
  | .mk d _ => d

def ONode.children : ONode → List ONode
  | .mk _ c => c

def ONode.uuid (n : ONode) : String := n.data.uuid

def ONode.name (n : ONode) : String := n.data.name

/-- The shared mutable `name_counts` dict: parent uuid -> name -> count. -/
abbrev Counts := List (String × List (String × Nat))

/-- Lines 261-270 of crawler.py: bump the per-parent counter for the raw
entity name and suffix `_<count>` from the second occurrence on.  At the root
(`parent is None`) no counting happens. -/
def disambiguate (parentUuid : Option String) (entityName : String) (counts : Counts) :
    String × Counts :=
  match parentUuid with
  | none => (entityName, counts)
  | some pid =>
      let inner := (dictFind counts pid).getD []
      let c := (dictFind inner entityName).getD 0 + 1
      let counts2 := dictInsert counts pid (dictInsert inner entityName c)
      (if c > 1 then entityName ++ "_" ++ toString c else entityName, counts2)

/-- `float(vis.get(prop, 0.0))` guarded by `if prop in vis`. -/
def readRat (vis : PDict) (key : String) : Except Unit (Option Rat) :=
  match dictFind vis key with
  | none => .ok none
  | some v =>
      match pyFloat? v with
      | some q => .ok (some q)
      | none => .error ()

/-- Lines 283-299 of crawler.py: copy the resolved visualization onto the
node (rotations and positions through `float`, the rest verbatim).  An empty
dict is falsy in Python, so it is skipped like `None`. -/
def applyVis (visOpt : Option PDict) (d : ONodeData) : Except Unit ONodeData :=
  match visOpt with
  | none => .ok d
  | some vis =>
      if vis.isEmpty then .ok d
      else
        match readRat vis "rotX" with
        | .error e => .error e
        | .ok rx =>
        match readRat vis "rotY" with
        | .error e => .error e
        | .ok ry =>
        match readRat vis "rotZ" with
        | .error e => .error e
        | .ok rz =>
        match readRat vis "posX" with
        | .error e => .error e
        | .ok px =>
        match readRat vis "posY" with
        | .error e => .error e
        | .ok py =>
        match readRat vis "posZ" with
        | .error e => .error e
        | .ok pz =>
            .ok { d with
                  rotX := rx
                  rotY := ry
                  rotZ := rz
                  posX := px
                  posY := py
                  posZ := pz
                  sizeX := dictFind vis "sizeX"
                  sizeY := dictFind vis "sizeY"
                  sizeZ := dictFind vis "sizeZ"
                  radius := dictFind vis "radius"
                  transparency := dictFind vis "transparency" }

/-- Lines 310-326 of crawler.py: attach the part reference when the entity
has (truthy) resolved visualization — the first `inheritsFrom` base when that
id is a key of the base-entities map, the entity itself otherwise. -/
def applyPartRef (visOpt : Option PDict) (entity : Entity)
    (baseMap : List (String × Entity)) (d : ONodeData) : ONodeData :=
  match visOpt with
  | none => d
  | some vis =>
      if vis.isEmpty then d
      else
        match entity.inheritsFrom with
        | b :: _ =>
            match dictFind baseMap b with
            | some be => { d with partUuid := some b, partName := some be.name }
            | none => { d with partUuid := some entity.id, partName := some entity.name }
        | [] => { d with partUuid := some entity.id, partName := some entity.name }

/-- The `for child in tree.get(entity_id, [])` loop: recurse on each listed
child, skip `None` results, append the rest in order, threading the shared
counter state. -/
def foldChildren (f : String → Counts → Except Unit (Option ONode × Counts)) :
    List Entity → List ONode → Counts → Except Unit (List ONode × Counts)
  | [], acc, counts => .ok (acc, counts)
  | ch :: rest, acc, counts =>
      match f ch.id counts with
      | .error e => .error e
      | .ok (none, counts2) => foldChildren f rest acc counts2
      | .ok (some n, counts2) => foldChildren f rest (acc ++ [n]) counts2

/-- `build_output_tree` (crawler.py 243-328).  The source's `categories`
parameter is only forwarded to recursive calls while `all_categories` does
the work; they are merged into one `cats` parameter here.  `fuel` models the
recursion-depth budget of the unguarded tree recursion (a parent-cycle would
raise `RecursionError`, the `.error` case). -/
def buildOutputTree : Nat → String → List Entity → List (String × List Entity) →
    List Category → List (String × Entity) → Option String → Counts →
    Except Unit (Option ONode × Counts)
  | 0, _, _, _, _, _, _, _ => .error ()
  | fuel + 1, entityId, entities, tree, cats, baseMap, parentUuid, counts =>
      match entities.find? (fun e => e.id = entityId) with
      | none => .ok (none, counts)
      | some entity =>
          let nc := disambiguate parentUuid entity.name counts
          match extractVisualization (fuel + 1) cats entities entityId with
          | .error e => .error e
          | .ok visOpt =>
              match applyVis visOpt { name := nc.1, uuid := entity.id } with
              | .error e => .error e
              | .ok d1 =>
                  match foldChildren
                      (fun cid cnts =>
                        buildOutputTree fuel cid entities tree cats baseMap
                          (some entity.id) cnts)
                      ((dictFind tree entityId).getD []) [] nc.2 with
                  | .error e => .error e
                  | .ok (children, counts2) =>
                      .ok (some (ONode.mk (applyPartRef visOpt entity baseMap d1)
                        children), counts2)

/-! ### Projections used to state properties of built trees -/

/-- The display names of the root node's children, when a tree was built. -/
def childNames (r : Except Unit (Option ONode × Counts)) : List String :=
  match r with
  | .ok (some n, _) => n.children.map ONode.name
  | _ => []

/-- The uuids of the root node's children, when a tree was built. -/
def childUuids (r : Except Unit (Option ONode × Counts)) : List String :=
  match r with
  | .ok (some n, _) => n.children.map ONode.uuid
  | _ => []

/-- The display names of the grandchildren, grouped per child. -/
def grandchildNames (r : Except Unit (Option ONode × Counts)) : List (List String) :=
  match r with
  | .ok (some n, _) => n.children.map (fun c => c.children.map ONode.name)
  | _ => []

/-- The part reference of the built root node, when a tree was built. -/
def builtPartUuid (r : Except Unit (Option ONode × Counts)) : Option (Option String) :=
  match r with
  | .ok (some n, _) => some n.data.partUuid
  | _ => none

theorem strSuffixTwo (s : String) : s ++ "_" ++ toString (2 : Nat) = s ++ "_2" := by
  rw [String.append_assoc]; rfl

theorem strSuffixThree (s : String) : s ++ "_" ++ toString (3 : Nat) = s ++ "_3" := by
  rw [String.append_assoc]; rfl

/-- Data showing the duplicate-name counters are scoped per parent: two
assemblies `a` and `b` under one root, each with two children named
`Panel`. -/
def scopeR : Entity := ⟨"r", "R", "T", none, []⟩

def scopeA : Entity := ⟨"a", "A", "T", some (.str "r"), []⟩

def scopeB : Entity := ⟨"b", "B", "T", some (.str "r"), []⟩

def scopeX1 : Entity := ⟨"x1", "Panel", "T", some (.str "a"), []⟩

def scopeX2 : Entity := ⟨"x2", "Panel", "T", some (.str "a"), []⟩

def scopeY1 : Entity := ⟨"y1", "Panel", "T", some (.str "b"), []⟩

def scopeY2 : Entity := ⟨"y2", "Panel", "T", some (.str "b"), []⟩

def scopeEnts : List Entity :=
  [scopeR, scopeA, scopeB, scopeX1, scopeX2, scopeY1, scopeY2]

def scopeTree : List (String × List Entity) :=
  [("r", [scopeA, scopeB]), ("a", [scopeX1, scopeX2]), ("b", [scopeY1, scopeY2])]

/-- C7: three sibling entities sharing one name under a parent render as
`name`, `name_2`, `name_3` in source order (a per-parent counter leaves the
first occurrence unmodified and suffixes the n-th repeat with `_n`), and the
counter state is scoped per parent id: two parents each holding two children
named `Panel` both render `Panel`, `Panel_2` — the second parent's numbering
restarts rather than continuing globally. -/
theorem buildOutputTree_duplicate_names
    (f : Nat) (pid i1 i2 i3 pn nm etn : String)
    (h1 : i1 ≠ pid) (h2 : i2 ≠ pid) (h3 : i3 ≠ pid)
    (h12 : i1 ≠ i2) (h13 : i1 ≠ i3) (h23 : i2 ≠ i3) :
    childNames (buildOutputTree (f + 2) pid
      [⟨pid, pn, etn, none, []⟩, ⟨i1, nm, etn, some (.str pid), []⟩,
       ⟨i2, nm, etn, some (.str pid), []⟩, ⟨i3, nm, etn, some (.str pid), []⟩]
      [(pid, [⟨i1, nm, etn, some (.str pid), []⟩,
        ⟨i2, nm, etn, some (.str pid), []⟩,
        ⟨i3, nm, etn, some (.str pid), []⟩])]
      [] [] none []) = [nm, nm ++ "_2", nm ++ "_3"] ∧
    grandchildNames (buildOutputTree 4 "r" scopeEnts scopeTree [] [] none []) =
      [["Panel", "Panel_2"], ["Panel", "Panel_2"]] := by
  constructor
  · simp [childNames, buildOutputTree, extractVisualization, foldBaseProps,
      visCandidates, chooseCandidate, applyVis, applyPartRef, disambiguate,
      foldChildren, dictFind, dictInsert, ONode.name, ONode.data,
      ONode.children, h1, h2, h3, h12, h13, h23,
      Ne.symm h1, Ne.symm h2, Ne.symm h3, Ne.symm h12, Ne.symm h13,
      Ne.symm h23, strSuffixTwo, strSuffixThree]
  · decide

theorem buildOutputTree_duplicate_names_witness :
    childNames (buildOutputTree 3 "p"
      [⟨"p", "P", "T", none, []⟩, ⟨"i1", "Panel", "T", some (.str "p"), []⟩,
       ⟨"i2", "Panel", "T", some (.str "p"), []⟩,
       ⟨"i3", "Panel", "T", some (.str "p"), []⟩]
      [("p", [⟨"i1", "Panel", "T", some (.str "p"), []⟩,
        ⟨"i2", "Panel", "T", some (.str "p"), []⟩,
        ⟨"i3", "Panel", "T", some (.str "p"), []⟩])]
      [] [] none []) = ["Panel", "Panel_2", "Panel_3"] ∧
    grandchildNames (buildOutputTree 4 "r" scopeEnts scopeTree [] [] none []) =
      [["Panel", "Panel_2"], ["Panel", "Panel_2"]] :=
  buildOutputTree_duplicate_names 1 "p" "i1" "i2" "i3" "P" "Panel" "T"
    (by decide) (by decide) (by decide) (by decide) (by decide) (by decide)

/-- C10: a child id listed in the parent-child index with no matching entity
in the entities list is silently omitted — the recursive call yields no node
and nothing is appended — while the surrounding siblings are built normally
and the root build does not abort. -/
theorem buildOutputTree_missing_child
    (f : Nat) (pid i1 i2 mi pn n1 n2 mn etn : String)
    (h1 : i1 ≠ pid) (h2 : i2 ≠ pid) (h12 : i1 ≠ i2)
    (hm0 : mi ≠ pid) (hm1 : mi ≠ i1) (hm2 : mi ≠ i2) :
    childUuids (buildOutputTree (f + 2) pid
      [⟨pid, pn, etn, none, []⟩, ⟨i1, n1, etn, some (.str pid), []⟩,
       ⟨i2, n2, etn, some (.str pid), []⟩]
      [(pid, [⟨i1, n1, etn, some (.str pid), []⟩,
        ⟨mi, mn, etn, some (.str pid), []⟩,
        ⟨i2, n2, etn, some (.str pid), []⟩])]
      [] [] none []) = [i1, i2] := by
  simp [childUuids, buildOutputTree, extractVisualization, foldBaseProps,
    visCandidates, chooseCandidate, applyVis, applyPartRef, disambiguate,
    foldChildren, dictFind, dictInsert, ONode.uuid, ONode.data, ONode.children,
    h1, h2, h12, hm0, hm1, hm2, Ne.symm h1, Ne.symm h2, Ne.symm h12,
    Ne.symm hm0, Ne.symm hm1, Ne.symm hm2]

theorem buildOutputTree_missing_child_witness :
    childUuids (buildOutputTree 3 "p"
      [⟨"p", "P", "T", none, []⟩, ⟨"i1", "A", "T", some (.str "p"), []⟩,
       ⟨"i2", "B", "T", some (.str "p"), []⟩]
      [("p", [⟨"i1", "A", "T", some (.str "p"), []⟩,
        ⟨"gone", "M", "T", some (.str "p"), []⟩,
        ⟨"i2", "B", "T", some (.str "p"), []⟩])]
      [] [] none []) = ["i1", "i2"] :=
  buildOutputTree_missing_child 1 "p" "i1" "i2" "gone" "P" "A" "B" "M" "T"
    (by decide) (by decide) (by decide) (by decide) (by decide) (by decide)

/-- C4 (amended): for a visited entity whose resolved visualization is
truthy, the built node's part reference is: the first `inheritsFrom` base id
(with that base entity's name) when that id is a key of the base-entities
map; the entity's own id and name when the base id is missing from the map
(the source's fallback, crawler.py 319-322); and the entity's own id and
name when `inheritsFrom` is absent or empty. -/
theorem buildOutputTree_partRef
    (fuel : Nat) (entityId : String) (entities : List Entity)
    (tree : List (String × List Entity)) (cats : List Category)
    (baseMap : List (String × Entity)) (parentUuid : Option String)
    (counts : Counts) (entity : Entity) (vis : PDict) (node : ONode)
    (counts2 : Counts)
    (hfind : entities.find? (fun e => e.id = entityId) = some entity)
    (hvis : extractVisualization (fuel + 1) cats entities entityId = .ok (some vis))
    (hne : vis.isEmpty = false)
    (hres : buildOutputTree (fuel + 1) entityId entities tree cats baseMap
      parentUuid counts = .ok (some node, counts2)) :
    (∀ b rest, entity.inheritsFrom = b :: rest →
      (∀ be, dictFind baseMap b = some be →
        node.data.partUuid = some b ∧ node.data.partName = some be.name) ∧
      (dictFind baseMap b = none →
        node.data.partUuid = some entity.id ∧
          node.data.partName = some entity.name)) ∧
    (entity.inheritsFrom = [] →
      node.data.partUuid = some entity.id ∧
        node.data.partName = some entity.name) := by
  rw [buildOutputTree] at hres
  simp only [hfind, hvis] at hres
  rcases happ : applyVis (some vis)
      { name := (disambiguate parentUuid entity.name counts).1,
        uuid := entity.id } with e | d1
  · simp only [happ] at hres
    exact Except.noConfusion hres
  · simp only [happ] at hres
    rcases hfold : foldChildren
        (fun cid cnts =>
          buildOutputTree fuel cid entities tree cats baseMap
            (some entity.id) cnts)
        ((dictFind tree entityId).getD []) []
        (disambiguate parentUuid entity.name counts).2
        with e | pr
    · simp only [hfold] at hres
      exact Except.noConfusion hres
    · obtain ⟨ch, cnt⟩ := pr
      simp only [hfold, Except.ok.injEq, Prod.mk.injEq, Option.some.injEq] at hres
      have hdata : node.data = applyPartRef (some vis) entity baseMap d1 := by
        rw [← hres.1]
        rfl
      constructor
      · intro b rest hinh
        constructor
        · intro be hbe
          rw [hdata]
          simp [applyPartRef, hne, hinh, hbe]
        · intro hbe
          rw [hdata]
          simp [applyPartRef, hne, hinh, hbe]
      · intro hinh
        rw [hdata]
        simp [applyPartRef, hne, hinh]

/-- C4 counterexample data: entity `e1` inherits from base id `B`, but `B`
is not a key of the base-entities map the generator derives (no
`ProductDefinition` entities exist, so the map holds `e1` only). -/
def c4Ent : Entity := ⟨"e1", "E1", "T", none, ["B"]⟩

def c4Cat : Category :=
  ⟨"k", "visualization", "e1", none, [⟨"shape", .plain (.str "BOX")⟩]⟩

/-- C4 counterexample: the claim predicts `partUuid = "B"` (the first base
id) whenever `inheritsFrom` is non-empty, but the built node references the
entity itself because `B` is not in the base-entities map. -/
theorem buildOutputTree_partRef_cex :
    builtPartUuid (buildOutputTree 2 "e1" [c4Ent] [] [c4Cat]
      [("e1", c4Ent)] none []) = some (some "e1") ∧
    builtPartUuid (buildOutputTree 2 "e1" [c4Ent] [] [c4Cat]
      [("e1", c4Ent)] none []) ≠ some (some "B") := by
  refine ⟨by decide, by decide⟩

/-- Witness data for `buildOutputTree_partRef`: entity `e2` inherits from
`b2`, which IS in the base-entities map. -/
def c4wEntE : Entity := ⟨"e2", "E2", "T", none, ["b2"]⟩

def c4wEntB : Entity := ⟨"b2", "Base2", "T", none, []⟩

def c4wCat : Category :=
  ⟨"k2", "geometry", "e2", none, [⟨"shape", .plain (.str "BOX")⟩]⟩

def c4wNode : ONode :=
  ONode.mk { name := "E2", uuid := "e2", partUuid := some "b2",
             partName := some "Base2" } []

theorem buildOutputTree_partRef_witness :
    (∀ b rest, c4wEntE.inheritsFrom = b :: rest →
      (∀ be, dictFind [("b2", c4wEntB)] b = some be →
        c4wNode.data.partUuid = some b ∧ c4wNode.data.partName = some be.name) ∧
      (dictFind [("b2", c4wEntB)] b = none →
        c4wNode.data.partUuid = some c4wEntE.id ∧
          c4wNode.data.partName = some c4wEntE.name)) ∧
    (c4wEntE.inheritsFrom = [] →
      c4wNode.data.partUuid = some c4wEntE.id ∧
        c4wNode.data.partName = some c4wEntE.name) :=
  buildOutputTree_partRef 1 "e2" [c4wEntE, c4wEntB] [] [c4wCat]
    [("b2", c4wEntB)] none [] c4wEntE [("shape", Val.str "BOX")] c4wNode []
    (by decide) (by decide) (by decide) (by rfl)

theorem getPartData_shape_dispatch_witness :
    ∃ p, getPartData 2 [cylCat] [cylEnt] cylEnt = .ok (some p) ∧
      p.shape = (if ("CYLINDER" : String) = "BOX" ∨ ("CYLINDER" : String) = "SPHERE" ∨
          ("CYLINDER" : String) = "CYLINDER" then ("CYLINDER" : String) else "BOX") ∧
      (("CYLINDER" : String) = "SPHERE" →
        p.radius = (if 0 < (2 : Rat) then 2 else max 1 (max 3 1) / 2)) ∧
      (("CYLINDER" : String) = "CYLINDER" →
        p.radius = (if 0 < (2 : Rat) then 2 else max 1 1 / 2)) ∧
      ((("CYLINDER" : String) ≠ "BOX" ∧ ("CYLINDER" : String) ≠ "SPHERE" ∧
          ("CYLINDER" : String) ≠ "CYLINDER") →
        p.shape = "BOX" ∧ p.lengthX = 1 ∧ p.lengthY = 3 ∧ p.lengthZ = 1 ∧
          p.radius = 2) :=
  getPartData_shape_dispatch 2 [cylCat] [cylEnt] cylEnt cylVis "CYLINDER" 1 3 1 2 0
    (by decide) (by decide) (by decide) (by decide) (by decide) (by decide)
    (by decide) (by decide) (by decide)

/-! ### Generation driver (`generate_satellite_data`, crawler.py 349-523)

The HTTP fetching is outside the model: `generateCore` takes the three
fetched collections.  The Python wraps the whole body in `try/except`
returning an error dict; exceptions of the model (`Except.error` from parts
or tree building) are mapped to `GenResult.error` the same way.  The
snapshot's `timestamp` field (`time.time()`) is wall-clock and is omitted. -/

structure ModelEntry : Type where
  id : String
  name : String
  type : String
deriving DecidableEq, Repr

inductive GenResult : Type where
  | error (msg : String)
  | models (ms : List ModelEntry)
  | snapshot (products : ONode) (parts : List PartData)

def excludedRootNames : List String := ["Product Tree", "Product Tree Domain", "Modes"]

/-- Lines 393-408 of crawler.py: ids of entity types marked `isRoot` and not
named in the excluded list. -/
def rootModelIds (entityTypes : List EntityType) : List String :=
  (entityTypes.filter
    (fun et => et.isRoot && !(excludedRootNames.contains et.name))).map EntityType.id

/-- Line 421-422 of crawler.py: `not parent_id or parent_id == 'None' or
parent_id == 'null'`. -/
def parentFalsyOrNullish (e : Entity) : Bool :=
  match e.parentId with
  | none => true
  | some .null => true
  | some (.str s) => s = "" || s = "None" || s = "null"

/-- Lines 412-438 of crawler.py: eligible root entities, with the two
fallbacks applied when the primary criterion finds none. -/
def rootEntitiesOf (entityTypes : List EntityType) (entities : List Entity) :
    List Entity :=
  let rmIds := rootModelIds entityTypes
  let primary := entities.filter
    (fun e => rmIds.contains e.entityTypeId && parentFalsyOrNullish e)
  if primary.isEmpty then
    let fb1 := entities.filter (fun e =>
      match e.parentId with
      | none => true
      | some p => !(pyIdTruthy p))
    if fb1.isEmpty then entities.filter (fun e => rmIds.contains e.entityTypeId)
    else fb1
  else primary

/-- Lines 452-456 of crawler.py: the type name shown in a model entry. -/
def typeNameOf (entityTypes : List EntityType) (e : Entity) : String :=
  ((entityTypes.find? (fun et => et.id = e.entityTypeId)).map EntityType.name).getD
    "Unknown"

def modelEntryOf (entityTypes : List EntityType) (e : Entity) : ModelEntry :=
  ⟨e.id, e.name, typeNameOf entityTypes e⟩

/-- Lines 471-476 of crawler.py: `ProductDefinition` entities, or all
entities when there are none. -/
def baseEntitiesOf (entities : List Entity) : List Entity :=
  let b := entities.filter (fun e => e.entityTypeId = "ProductDefinition")
  if b.isEmpty then entities else b

def baseMapOf (baseEntities : List Entity) : List (String × Entity) :=
  baseEntities.foldl (fun m e => dictInsert m e.id e) []

/-- Lines 483-491 of crawler.py: one part per base entity whose part data is
non-`None`; a conversion exception aborts the run. -/
def partsListOf (fuel : Nat) (cats : List Category) (entities : List Entity) :
    List Entity → List PartData → Except Unit (List PartData)
  | [], acc => .ok acc
  | e :: rest, acc =>
      match getPartData fuel cats entities e with
      | .error er => .error er
      | .ok none => partsListOf fuel cats entities rest acc
      | .ok (some p) => partsListOf fuel cats entities rest (acc ++ [p])

/-- Lines 465-516 of crawler.py: from the point where a model id is fixed to
the returned snapshot. -/
def generateWithModel (fuel : Nat) (entities : List Entity) (cats : List Category)
    (sid : String) : GenResult :=
  if entities.any (fun e => e.id = sid) then
    let baseEntities := baseEntitiesOf entities
    match partsListOf fuel cats entities baseEntities [] with
    | .error _ => .error "Failed to generate satellite data"
    | .ok parts =>
        match buildOutputTree fuel sid entities (buildEntityTree entities) cats
            (baseMapOf baseEntities) none [] with
        | .error _ => .error "Failed to generate satellite data"
        | .ok (none, _) => .error "Failed to generate valid products tree"
        | .ok (some node, _) => .snapshot node parts
  else .error ("Selected model " ++ sid ++ " not found")

/-- `generate_satellite_data` (crawler.py 349-523) after the three fetches:
normalize ids, find eligible roots, apply the model-selection protocol, then
build parts and products. -/
def generateCore (fuel : Nat) (entityTypes : List EntityType)
    (entities0 : List Entity) (cats : List Category)
    (selectedModelId : Option String) : GenResult :=
  if entityTypes.isEmpty then .error "No entity types returned from API"
  else if entities0.isEmpty then .error "No entities returned from API"
  else
    let entities := entities0.map normalizeEntity
    match selectedModelId with
    | none =>
        match rootEntitiesOf entityTypes entities with
        | [r] => generateWithModel fuel entities cats r.id
        | roots => .models (roots.map (modelEntryOf entityTypes))
    | some sid => generateWithModel fuel entities cats sid

theorem rootEntitiesOf_mem (entityTypes : List EntityType) (entities : List Entity)
    (x : Entity) (hx : x ∈ rootEntitiesOf entityTypes entities) : x ∈ entities := by
  unfold rootEntitiesOf at hx
  by_cases h1 : (entities.filter
      (fun e => (rootModelIds entityTypes).contains e.entityTypeId &&
        parentFalsyOrNullish e)).isEmpty
  · rw [if_pos h1] at hx
    by_cases h2 : (entities.filter (fun e =>
        match e.parentId with
        | none => true
        | some p => !(pyIdTruthy p))).isEmpty
    · rw [if_pos h2] at hx
      exact (List.mem_filter.mp hx).1
    · rw [if_neg h2] at hx
      exact (List.mem_filter.mp hx).1
  · rw [if_neg h1] at hx
    exact (List.mem_filter.mp hx).1

/-- C9: with `selectedModelId` omitted, more than one eligible root entity
makes the call return a models list (one `{id, name, type}` entry per
eligible root) instead of a snapshot, while exactly one eligible root is
auto-selected and — when the parts list and the products tree compute
without exception — the result is a snapshot with `Products` populated from
that root. -/
theorem generate_model_selection
    (fuel : Nat) (entityTypes : List EntityType) (entities0 : List Entity)
    (cats : List Category)
    (hET : entityTypes ≠ []) (hE : entities0 ≠ []) :
    (1 < (rootEntitiesOf entityTypes (entities0.map normalizeEntity)).length →
      generateCore fuel entityTypes entities0 cats none =
        .models ((rootEntitiesOf entityTypes (entities0.map normalizeEntity)).map
          (modelEntryOf entityTypes))) ∧
    (∀ r parts node counts,
      rootEntitiesOf entityTypes (entities0.map normalizeEntity) = [r] →
      partsListOf fuel cats (entities0.map normalizeEntity)
        (baseEntitiesOf (entities0.map normalizeEntity)) [] = .ok parts →
      buildOutputTree fuel r.id (entities0.map normalizeEntity)
        (buildEntityTree (entities0.map normalizeEntity)) cats
        (baseMapOf (baseEntitiesOf (entities0.map normalizeEntity))) none [] =
        .ok (some node, counts) →
      generateCore fuel entityTypes entities0 cats none = .snapshot node parts) := by
  have h1 : entityTypes.isEmpty = false := by
    simpa [List.isEmpty_iff] using hET
  have h2 : entities0.isEmpty = false := by
    simpa [List.isEmpty_iff] using hE
  constructor
  · intro hlen
    rcases hr : rootEntitiesOf entityTypes (entities0.map normalizeEntity)
        with _ | ⟨a, tail⟩
    · rw [hr] at hlen; simp at hlen
    · rcases tail with _ | ⟨b, rest⟩
      · rw [hr] at hlen; simp at hlen
      · simp only [generateCore, h1, h2, hr, Bool.false_eq_true, if_false]
  · intro r parts node counts hroots hparts hbuild
    have hmem : r ∈ entities0.map normalizeEntity :=
      rootEntitiesOf_mem _ _ r (by rw [hroots]; exact List.mem_singleton_self r)
    have hany : (entities0.map normalizeEntity).any (fun e => e.id = r.id) = true :=
      List.any_eq_true.mpr ⟨r, hmem, by simp⟩
    simp only [generateCore, h1, h2, hroots, Bool.false_eq_true, if_false,
      generateWithModel, hany, if_true, hparts, hbuild]

/-- Witness data for the model-selection gate: one root type `Sat`; scenario
A has two eligible roots, scenario B exactly one, carrying a BOX
visualization. -/
def selET : List EntityType := [⟨"rt", "Sat", true⟩]

def selE1 : Entity := ⟨"e1", "E1", "rt", none, []⟩

def selE2 : Entity := ⟨"e2", "E2", "rt", none, []⟩

def selM : Entity := ⟨"m1", "M", "rt", none, []⟩

def selCats : List Category :=
  [⟨"cm", "visualization", "m1", none,
    [⟨"shape", .plain (.str "BOX")⟩, ⟨"sizeX", .plain (.num 1)⟩,
     ⟨"sizeY", .plain (.num 2)⟩, ⟨"sizeZ", .plain (.num 3)⟩]⟩]

def selParts : List PartData := [⟨"BOX", "m1", "M", 12632256, 0, 1, 2, 3, 0⟩]

def selVisM : PDict :=
  [("shape", Val.str "BOX"), ("sizeX", Val.num 1), ("sizeY", Val.num 2),
   ("sizeZ", Val.num 3)]

def selNode : ONode :=
  ONode.mk { name := "M", uuid := "m1",
             sizeX := some (Val.num 1), sizeY := some (Val.num 2),
             sizeZ := some (Val.num 3),
             partUuid := some "m1", partName := some "M" } []

theorem generate_model_selection_witness :
    generateCore 2 selET [selE1, selE2] [] none =
      .models [⟨"e1", "E1", "Sat"⟩, ⟨"e2", "E2", "Sat"⟩] ∧
    generateCore 2 selET [selM] selCats none = .snapshot selNode selParts :=
  ⟨(generate_model_selection 2 selET [selE1, selE2] [] (by decide) (by decide)).1
      (by decide),
   (generate_model_selection 2 selET [selM] selCats (by decide) (by decide)).2
      selM selParts selNode [] (by decide) (by decide) (by rfl)⟩

/-! ### Incremental reconciler (`update_satellite_document`,
SatelliteImporter.py 436-542)

The FreeCAD document is modelled as a list of objects; `fcname` is the
document-internal `Name` (`doc.removeObject` targets it; FreeCAD keeps names
unique, which `fcnames_nodup` hypotheses capture), `parent` is the enclosing
`App::Part`'s name (`getParent()`/`addObject`).  The source's epsilon
comparisons (1e-6) on floats are modelled as exact comparisons on exact
rationals, and property values that the crawler always produces as numbers
(`transparency`) are read with a total conversion defaulting to zero. -/

structure Placement : Type where
  posX : Rat
  posY : Rat
  posZ : Rat
  rotX : Rat
  rotY : Rat
  rotZ : Rat
deriving DecidableEq, Repr

/-- `create_local_placement` (SatelliteImporter.py 242-253): meters to
millimeters for positions; rotation values are used as degrees. -/
def createLocalPlacement (n : ONode) : Placement :=
  { posX := (n.data.posX.getD 0) * 1000, posY := (n.data.posY.getD 0) * 1000,
    posZ := (n.data.posZ.getD 0) * 1000, rotX := n.data.rotX.getD 0,
    rotY := n.data.rotY.getD 0, rotZ := n.data.rotZ.getD 0 }

structure FCObj : Type where
  uuid : String
  fcname : String
  parent : Option String
  label : String
  placement : Placement
  isPart : Bool
  shapeType : String
  colorValue : Int
  transparency : Rat
  lengthX : Rat := 0
  lengthY : Rat := 0
  lengthZ : Rat := 0
  radius : Rat := 0
  cylinderHeight : Rat := 0
  radius1 : Rat := 0
  radius2 : Rat := 0
  coneHeight : Rat := 0
deriving DecidableEq, Repr

abbrev Doc := List FCObj

/-- `normalize_uuid` (SatelliteImporter.py 439-440):
`str(uuid).strip().lower() if uuid else ""`. -/
def normalizeUuid (u : String) : String := if u = "" then "" else strLower (strTrim u)

/-- `get_object_by_uuid` (SatelliteImporter.py 386-391): first object whose
raw `UUID` property equals the given string. -/
def getObjectByUuid (doc : Doc) (u : String) : Option FCObj :=
  doc.find? (fun o => o.uuid = u)

/-- Replace the (unique) object of the given document name. -/
def docUpdate (doc : Doc) (name : String) (newObj : FCObj) : Doc :=
  doc.map (fun o => if o.fcname = name then newObj else o)

/-- `{normalize_uuid(p.get("uuid")): p for p in parts}`. -/
def updatedPartsOf (parts : List PartData) : List (String × PartData) :=
  parts.foldl (fun m p => dictInsert m (normalizeUuid p.uuid) p) []

mutual
/-- `index_nodes` (SatelliteImporter.py 446-453): preorder walk collecting
`normalize_uuid(uuid) -> node` for every node with a non-empty uuid. -/
def indexNodes : ONode → List (String × ONode) → List (String × ONode)
  | .mk d cs, acc =>
      indexNodesList cs
        (if normalizeUuid d.uuid = "" then acc
         else dictInsert acc (normalizeUuid d.uuid) (.mk d cs))
def indexNodesList : List ONode → List (String × ONode) → List (String × ONode)
  | [], acc => acc
  | c :: rest, acc => indexNodesList rest (indexNodes c acc)
end

/-- First-occurrence deduplication (the model's deterministic stand-in for
Python's `set` of existing uuids; removal order does not affect the final
document because each uuid removes at most one, distinct, object). -/
def dedupAux : List String → List String → List String
  | [], _ => []
  | x :: rest, seen =>
      if seen.contains x then dedupAux rest seen else x :: dedupAux rest (x :: seen)

/-- Lines 458-467 of SatelliteImporter.py: for each uuid to remove, find the
object by (raw) uuid and remove the object of that name. -/
def removeUuids : List String → Doc → Nat → Doc × Nat
  | [], doc, removed => (doc, removed)
  | u :: rest, doc, removed =>
      match getObjectByUuid doc u with
      | some o => removeUuids rest (doc.eraseP (fun x => x.fcname = o.fcname)) (removed + 1)
      | none => removeUuids rest doc removed

/-- Lines 455-467 of SatelliteImporter.py: remove every materialized object
whose normalized uuid is absent from the new snapshot's node index. -/
def removalPhase (doc : Doc) (updNodes : List (String × ONode)) : Doc × Nat :=
  let existing := dedupAux (doc.map (fun o => normalizeUuid o.uuid)) []
  removeUuids (existing.filter (fun u => (dictFind updNodes u).isNone)) doc 0

/-- The crawler emits `transparency` as a number; `float` of it never raises
(SatelliteImporter.py 278 and 407 read it inside a try/except anyway). -/
def floatOrZero (v : Option Val) : Rat :=
  match v with
  | none => 0
  | some w => (pyFloat? w).getD 0

/-- The Python float literal `0.05` (cone-dimension default). -/
def ratTwentieth : Rat := ⟨1, 20, by decide, Nat.coprime_one_left 20⟩

/-- Part-object creation of `build_fc_tree_recursively`
(SatelliteImporter.py 262-296). -/
def mkPartObj (d : ONodeData) (cs : List ONode) (pi2 : PartData)
    (parentName : String) : FCObj :=
  let st := strUpper pi2.shape
  let base : FCObj :=
    { uuid := d.uuid, fcname := "Part_" ++ d.uuid, parent := some parentName,
      label := d.name, placement := createLocalPlacement (.mk d cs),
      isPart := true, shapeType := st, colorValue := pi2.color,
      transparency := floatOrZero d.transparency / 100 }
  if st = "BOX" then
    { base with
      lengthX := pi2.lengthX * 1000
      lengthY := pi2.lengthY * 1000
      lengthZ := pi2.lengthZ * 1000 }
  else if st = "CYLINDER" then
    { base with
      radius := pi2.radius * 1000
      cylinderHeight := pi2.lengthY * 1000 }
  else if st = "SPHERE" then
    { base with radius := pi2.radius * 1000 }
  else if st = "CONE" then
    { base with
      radius1 := ratTwentieth * 1000
      radius2 := 0
      coneHeight := ratTenth * 1000 }
  else base

/-- Assembly-object creation of `build_fc_tree_recursively`
(SatelliteImporter.py 297-303). -/
def mkAssyObj (d : ONodeData) (cs : List ONode) (parentName : String) : FCObj :=
  { uuid := d.uuid, fcname := "Assy_" ++ d.uuid, parent := some parentName,
    label := d.name, placement := createLocalPlacement (.mk d cs),
    isPart := false, shapeType := "", colorValue := 0, transparency := 0 }

mutual
/-- `build_fc_tree_recursively` (SatelliteImporter.py 256-309): a
`partUuid`-bearing leaf becomes a part object (skipped entirely when its raw
`partUuid` is not a key of the parts dict); anything else becomes an
assembly whose children are built beneath it.  FreeCAD's uniquification of
object names is not modelled. -/
def buildFcTree : ONode → String → List (String × PartData) → Doc → Doc
  | .mk d cs, parentName, parts, doc =>
      if d.partUuid.isSome && cs.isEmpty then
        match d.partUuid with
        | some pu =>
            match dictFind parts pu with
            | none => doc
            | some pi2 => doc ++ [mkPartObj d cs pi2 parentName]
        | none => doc
      else
        buildFcTreeList cs ("Assy_" ++ d.uuid) parts
          (doc ++ [mkAssyObj d cs parentName])
def buildFcTreeList : List ONode → String → List (String × PartData) → Doc → Doc
  | [], _, _, doc => doc
  | c :: rest, parentName, parts, doc =>
      buildFcTreeList rest parentName parts (buildFcTree c parentName parts doc)
end

/-- `update_part_properties` (SatelliteImporter.py 394-433): compare and set
placement, color, transparency, shape type and (for boxes) lengths,
reporting whether anything changed. -/
def updatePartProperties (obj : FCObj) (n : ONode) (part : PartData) :
    FCObj × Bool :=
  let pl := createLocalPlacement n
  let s1 : FCObj × Bool :=
    if obj.placement = pl then (obj, false) else ({ obj with placement := pl }, true)
  let s2 : FCObj × Bool :=
    if s1.1.colorValue = part.color then s1
    else ({ s1.1 with colorValue := part.color }, true)
  let tv := floatOrZero n.data.transparency / 100
  let s3 : FCObj × Bool :=
    if s2.1.transparency = tv then s2 else ({ s2.1 with transparency := tv }, true)
  let st := strUpper part.shape
  let s4 : FCObj × Bool :=
    if s3.1.shapeType = st then s3 else ({ s3.1 with shapeType := st }, true)
  if st = "BOX" then
    let s5 : FCObj × Bool :=
      if s4.1.lengthX = part.lengthX * 1000 then s4
      else ({ s4.1 with lengthX := part.lengthX * 1000 }, true)
    let s6 : FCObj × Bool :=
      if s5.1.lengthY = part.lengthY * 1000 then s5
      else ({ s5.1 with lengthY := part.lengthY * 1000 }, true)
    if s6.1.lengthZ = part.lengthZ * 1000 then s6
    else ({ s6.1 with lengthZ := part.lengthZ * 1000 }, true)
  else s4

/-- The running state of the update walk: document and the added, updated
and moved counters. -/
abbrev UpdSt := Doc × Nat × Nat × Nat

mutual
/-- `process_node_for_update` (SatelliteImporter.py 471-510). -/
def processNode (parts : List (String × PartData)) : ONode → String → UpdSt → UpdSt
  | .mk d cs, parentName, (doc, a, u, m) =>
      let uuid := normalizeUuid d.uuid
      if uuid = "" then (doc, a, u, m)
      else
        let st1 : UpdSt :=
          match getObjectByUuid doc uuid with
          | none => (buildFcTree (.mk d cs) parentName parts doc, a + 1, u, m)
          | some obj =>
              let moved := obj.parent ≠ some parentName
              let obj1 := if moved then { obj with parent := some parentName } else obj
              let doc1 := if moved then docUpdate doc obj.fcname obj1 else doc
              let pres : FCObj × Bool :=
                if d.partUuid.isSome && cs.isEmpty then
                  match d.partUuid with
                  | some pu0 =>
                      match dictFind parts (normalizeUuid pu0) with
                      | some pi2 => updatePartProperties obj1 (.mk d cs) pi2
                      | none => (obj1, false)
                  | none => (obj1, false)
                else
                  let pl := createLocalPlacement (.mk d cs)
                  let t1 : FCObj × Bool :=
                    if obj1.placement = pl then (obj1, false)
                    else ({ obj1 with placement := pl }, true)
                  if t1.1.label = d.name then t1
                  else ({ t1.1 with label := d.name }, true)
              (docUpdate doc1 obj1.fcname pres.1, a,
                if pres.2 then u + 1 else u, if moved then m + 1 else m)
        match getObjectByUuid st1.1 uuid with
        | none => st1
        | some cur => processNodeList parts cs cur.fcname st1
def processNodeList (parts : List (String × PartData)) :
    List ONode → String → UpdSt → UpdSt
  | [], _, st => st
  | c :: rest, parentName, st =>
      processNodeList parts rest parentName (processNode parts c parentName st)
end

inductive UpdOutcome : Type where
  | rootNotFound
  | success (changes removed : Nat)
deriving DecidableEq, Repr

/-- `update_satellite_document` (SatelliteImporter.py 436-542): index the new
snapshot, REMOVE every stale materialized object, then look up the root —
reporting an error outcome (the source shows a critical dialog and returns
`(0, 0)`) when it is not materialized — and otherwise process the root's
children recursively, returning `(added + updated + moved, removed)`. -/
def updateSatelliteDocument (doc : Doc) (products : ONode) (parts : List PartData) :
    Doc × UpdOutcome :=
  let updParts := updatedPartsOf parts
  let updNodes := indexNodes products []
  let rp := removalPhase doc updNodes
  match getObjectByUuid rp.1 (normalizeUuid products.uuid) with
  | none => (rp.1, .rootNotFound)
  | some root =>
      let st := processNodeList updParts products.children root.fcname (rp.1, 0, 0, 0)
      (st.1, .success (st.2.1 + st.2.2.1 + st.2.2.2) rp.2)

theorem removeUuids_sublist : ∀ (us : List String) (doc : Doc) (r : Nat),
    (removeUuids us doc r).1.Sublist doc := by
  intro us
  induction us with
  | nil => intro doc r; simp [removeUuids]
  | cons u rest ih =>
      intro doc r
      rcases hfind : getObjectByUuid doc u with _ | obj
      · rw [removeUuids]
        simp only [hfind]
        exact ih doc r
      · rw [removeUuids]
        simp only [hfind]
        exact (ih _ _).trans (List.eraseP_sublist doc)

theorem removeUuids_mem : ∀ (us : List String) (doc : Doc) (r : Nat),
    (doc.map FCObj.fcname).Nodup →
    ∀ o ∈ doc, o ∈ (removeUuids us doc r).1 ∨ o.uuid ∈ us := by
  intro us
  induction us with
  | nil =>
      intro doc r _ o ho
      left
      simpa [removeUuids] using ho
  | cons u rest ih =>
      intro doc r hnd o ho
      rcases hfind : getObjectByUuid doc u with _ | obj
      · rw [removeUuids]
        simp only [hfind]
        rcases ih doc r hnd o ho with h1 | h1
        · left; exact h1
        · right; exact List.mem_cons_of_mem _ h1
      · rw [removeUuids]
        simp only [hfind]
        have hnd1 : ((doc.eraseP (fun x => x.fcname = obj.fcname)).map
            FCObj.fcname).Nodup :=
          hnd.sublist ((List.eraseP_sublist doc).map FCObj.fcname)
        by_cases hin : o ∈ doc.eraseP (fun x => x.fcname = obj.fcname)
        · rcases ih _ (r + 1) hnd1 o hin with h1 | h1
          · left; exact h1
          · right; exact List.mem_cons_of_mem _ h1
        · have hpo : o.fcname = obj.fcname := by
            by_contra hne
            exact hin ((List.mem_eraseP_of_neg (by simpa using hne)).mpr ho)
          have hobj_mem : obj ∈ doc := List.mem_of_find?_eq_some hfind
          have hoeq : o = obj := List.inj_on_of_nodup_map hnd ho hobj_mem hpo
          have huuid : obj.uuid = u := by simpa using List.find?_some hfind
          right
          rw [hoeq, huuid]
          exact List.mem_cons_self _ _

/-- C5 (amended): when the (new snapshot's, equal to the previous) root uuid
is not found among the materialized objects, reconciliation reports the
explicit error outcome and performs no additions, moves, or property
updates — the resulting document is exactly the removal phase's output, a
sublist of the previous document — but the stale-object removals HAVE
already been applied: every dropped object's uuid is absent from the new
snapshot's node index (so a document holding stale objects is mutated
before the error is detected). -/
theorem updateSatelliteDocument_rootMissing (doc : Doc) (products : ONode)
    (parts : List PartData)
    (hnodup : (doc.map FCObj.fcname).Nodup)
    (hroot : getObjectByUuid doc (normalizeUuid (ONode.uuid products)) = none) :
    updateSatelliteDocument doc products parts =
      ((removalPhase doc (indexNodes products [])).1, .rootNotFound) ∧
    (removalPhase doc (indexNodes products [])).1.Sublist doc ∧
    ∀ o ∈ doc, o ∈ (removalPhase doc (indexNodes products [])).1 ∨
      dictFind (indexNodes products []) o.uuid = none := by
  have hsub : (removalPhase doc (indexNodes products [])).1.Sublist doc :=
    removeUuids_sublist _ doc 0
  have hroot1 : getObjectByUuid (removalPhase doc (indexNodes products [])).1
      (normalizeUuid (ONode.uuid products)) = none := by
    rw [getObjectByUuid, List.find?_eq_none]
    intro x hx
    rw [getObjectByUuid, List.find?_eq_none] at hroot
    exact hroot x (hsub.mem hx)
  refine ⟨?_, hsub, ?_⟩
  · rw [updateSatelliteDocument]
    simp only [hroot1]
  · intro o ho
    rcases removeUuids_mem
        ((dedupAux (doc.map (fun o => normalizeUuid o.uuid)) []).filter
          (fun u => (dictFind (indexNodes products []) u).isNone))
        doc 0 hnodup o ho with h1 | h1
    · left; exact h1
    · right
      have h2 := (List.mem_filter.mp h1).2
      rwa [Option.isNone_iff_eq_none] at h2

/-- C5 counterexample data: one materialized object whose uuid `x` is absent
from the incoming snapshot, whose root `r` is not materialized. -/
def zeroPlacement : Placement := ⟨0, 0, 0, 0, 0, 0⟩

def staleObj : FCObj :=
  { uuid := "x", fcname := "Part_x", parent := none, label := "X",
    placement := zeroPlacement, isPart := true, shapeType := "BOX",
    colorValue := 0, transparency := 0 }

def cexProducts : ONode := ONode.mk { name := "R", uuid := "r" } []

/-- C5 counterexample: with the root not materialized the call does return
the error outcome, but the previously materialized state is NOT left
unchanged — the stale object has already been removed when the error is
reported, refuting "zero mutations applied". -/
theorem updateSatelliteDocument_rootMissing_cex :
    updateSatelliteDocument [staleObj] cexProducts [] = ([], .rootNotFound) ∧
    ([staleObj] : Doc) ≠ [] := by
  refine ⟨by decide, by decide⟩

theorem updateSatelliteDocument_rootMissing_witness :
    updateSatelliteDocument [staleObj] cexProducts [] =
      ((removalPhase [staleObj] (indexNodes cexProducts [])).1, .rootNotFound) ∧
    (removalPhase [staleObj] (indexNodes cexProducts [])).1.Sublist [staleObj] ∧
    ∀ o ∈ ([staleObj] : Doc),
      o ∈ (removalPhase [staleObj] (indexNodes cexProducts [])).1 ∨
        dictFind (indexNodes cexProducts []) o.uuid = none :=
  updateSatelliteDocument_rootMissing [staleObj] cexProducts []
    (by decide) (by decide)

end VirSat
